import Mathlib

/-! # pond: mDot radio node (`src/main.cpp`)

A shallow embedding of the firmware's control code and the properties of it
that the specification states.

Conventions of the embedding

* A `std::string` is the list of its characters (`Str`).
* A position returned by `string::find` is an `Option Nat`; `none` is
  `string::npos`.  The source keeps positions in `int` variables: `npos`
  becomes `-1` there and converts back to `npos` wherever it is compared with
  or passed as a `size_t`, so the two representations agree.
* The serial port is described by what it does while one command runs
  (`Channel`): the polls of each busy-wait loop that happen before that
  loop's deadline.  A loop whose list of polls is used up has reached its
  deadline.
* `printf` output (the debug console) and the pauses (`wait`) are left out.
-/

namespace Pond

/-! ## Strings -/

/-- A `std::string`. -/
abbrev Str := List Char

/-- A string literal of the source. -/
def lit (s : String) : Str := s.toList

/-- The search of `string::find` in a suffix `s` whose first character has
index `i` in the whole string. -/
def findFrom (pat : Str) : Str → Nat → Option Nat
  | [], i => if pat = [] then some i else none
  | c :: cs, i => if pat.isPrefixOf (c :: cs) then some i else findFrom pat cs (i + 1)

/-- The call `s.find(pat, pos)`: the first index at or after `pos` where `pat`
occurs, `none` (`npos`) when there is none or `pos` is past the end. -/
def find (s pat : Str) (pos : Nat) : Option Nat :=
  if pos ≤ s.length then findFrom pat (s.drop pos) pos else none

/-- The macro `CR` (0xD), also the `"\r"` that `parse_rx_messages` looks for. -/
def CR : Char := '\r'

/-- The text `"{"` that starts a JSON object. -/
def LBRACE : Char := '\x7b'

/-- The macro `EXPECT`: the modem's prompt. -/
def EXPECT : Str := lit "mDot: "

/-! ## The message parser -/

/-- The JSON library as `parse_rx_messages` uses it (`MbedJSONValue.h` is not
part of the sources): a default-constructed value, and
`parse(out, json.c_str())`, which works on the value `out` it is handed and
returns an error text, empty on success.  The component `parse` takes what
`out` holds and the candidate `json`, and gives the value left in `out` and
that error text. -/
structure JsonLib (J : Type) where
  null : J
  parse : J → Str → J × Str

/-- The element `msgs[count]` that `parse` is handed: the element already at
that index, or a fresh one when `count` is the array's size.  In the loop
`count` never exceeds the size; the array is taken as unbounded. -/
def slot {J : Type} (P : JsonLib J) (msgs : List J) (count : Nat) : J :=
  msgs.getD count P.null

/-- The array after `parse` has worked on `msgs[count]` and left `v` there. -/
def store {J : Type} (msgs : List J) (count : Nat) (v : J) : List J :=
  if count < msgs.length then msgs.set count v else msgs ++ [v]

/-- The call `messages.substr(beg_pos, end_pos - beg_pos)`; with `end_pos`
at `npos` the count wraps to a huge `size_t` and the rest of the string is
taken. -/
def candidate (messages : Str) (beg_pos : Nat) (end_pos : Option Nat) : Str :=
  match end_pos with
  | some e => (messages.drop beg_pos).take (e - beg_pos)
  | none => messages.drop beg_pos

/-- The call `messages.find("{", end_pos)`; a search from `npos` finds nothing. -/
def next_object (messages : Str) (end_pos : Option Nat) : Option Nat :=
  match end_pos with
  | some e => find messages [LBRACE] e
  | none => none

/-- The `while (beg_pos != string::npos)` loop of `parse_rx_messages`; the
first argument bounds the number of iterations. -/
def parse_loop {J : Type} (P : JsonLib J) (messages : Str) :
    Nat → Option Nat → List J → Nat → List J
  | 0, _, msgs, _ => msgs
  | _ + 1, none, msgs, _ => msgs
  | fuel + 1, some beg_pos, msgs, count =>
    let end_pos := find messages [CR] beg_pos
    let json := candidate messages beg_pos end_pos
    let r := P.parse (slot P msgs count) json
    parse_loop P messages fuel (next_object messages end_pos) (store msgs count r.1)
      (if r.2 ≠ [] then count else count + 1)

/-- The function `parse_rx_messages`: the elements of the returned array.
Every iteration moves `beg_pos` forward, so `messages.length + 1` iterations
are never used up (`parse_loop_fuel`). -/
def parse_rx_messages {J : Type} (P : JsonLib J) (messages : Str) : List J :=
  parse_loop P messages (messages.length + 1) (find messages [LBRACE] 0) [] 0

/-! ## Buffers of lines -/

/-- The text of a buffer of lines: each candidate `c.1` is followed by a
carriage return and then by the text `c.2.1` that precedes the next one. -/
def frame {J : Type} : List (Str × Str × J) → Str
  | [] => []
  | c :: rest => c.1 ++ CR :: c.2.1 ++ frame rest

/-- The text of a last candidate that no carriage return follows, if there
is one. -/
def tail_text {J : Type} : Option (Str × J) → Str
  | none => []
  | some t => t.1

/-- The document of that last candidate. -/
def tail_docs {J : Type} : Option (Str × J) → List J
  | none => []
  | some t => [t.2]

/-- A candidate text `o` that the parser turns into the document `d`: it
starts at a `{`, holds no carriage return, and parses to `d` whatever the
element it is parsed into held before. -/
def WellFormed {J : Type} (P : JsonLib J) (o : Str) (d : J) : Prop :=
  (∃ body, o = LBRACE :: body) ∧ CR ∉ o ∧ ∀ out, P.parse out o = (d, [])

/-- Modelled from the spec: the JSON document type `MbedJSONValue`, whose
header is not part of the sources.  The spec (data model, design notes) asks
for a closed tagged union that tells integer, floating and string payloads
apart; arrays and objects are what the message shapes `"subs": [...]` and
`"config": {...}` need. -/
inductive MbedJSONValue where
  | null
  | boolean (b : Bool)
  | int (v : Int)
  | double (v : Float)
  | string (s : Str)
  | array (items : List MbedJSONValue)
  | object (members : List (Str × MbedJSONValue))

namespace MbedJSONValue

/-- Modelled from the spec: `hasMember(key)`, whether the document is an
object with a member of that name. -/
def hasMember (j : MbedJSONValue) (key : Str) : Bool :=
  match j with
  | object members => members.any fun m => m.1 == key
  | _ => false

/-- Modelled from the spec: `j[key]`, the member of that name. -/
def member (j : MbedJSONValue) (key : Str) : MbedJSONValue :=
  match j with
  | object members =>
    match members.find? fun m => m.1 == key with
    | some m => m.2
    | none => null
  | _ => null

/-- Modelled from the spec: `size()`, the number of entries of an array or
of an object, 0 for any other value. -/
def size (j : MbedJSONValue) : Nat :=
  match j with
  | array items => items.length
  | object members => members.length
  | _ => 0

/-- Modelled from the spec: `get<string>()`.  It has a result on a string
value only; the source calls it without looking at the type first. -/
def get_string (j : MbedJSONValue) : Option Str :=
  match j with
  | string s => some s
  | _ => none

/-- Modelled from the spec: the strings `subs[j].get<string>()` of a
subscription list, which the source prints one by one. -/
def get_strings (j : MbedJSONValue) : Option (List Str) :=
  match j with
  | array items => items.mapM get_string
  | _ => none

end MbedJSONValue

/-! ## Transport: one command on the serial port -/

/-- What the serial port does while `raw_send_command` runs once.
`writeable` lists the results of `ser->writeable()` at the polls of the send
loop that fall within its 1000 ms; `readable` lists the polls of the receive
loop that fall within its 10000 ms, `some c` when `ser->readable()` held and
`ser->getc()` gave `c`.  The drain that precedes them reads into a local
`junk` that is dropped, so it is not described. -/
structure Channel where
  writeable : List Bool
  readable : List (Option Char)

/-- The function `rx_done`. -/
def rx_done (rx expect : Str) : Bool :=
  if find rx expect 0 = none then false else true

/-- The loop `while (sent < to_send && tmr.read_ms() <= 1000)`: the value of
`sent` when it ends. -/
def send_loop (to_send : Nat) : List Bool → Nat → Nat
  | [], sent => sent
  | w :: polls, sent =>
    if sent < to_send then send_loop to_send polls (if w then sent + 1 else sent) else sent

/-- The loop `while (tmr.read_ms() < 10000 && !rx_done(rx, EXPECT))`: the
value of `rx` when it ends. -/
def recv_loop : List (Option Char) → Str → Str
  | [], rx => rx
  | p :: polls, rx =>
    if rx_done rx EXPECT then rx
    else recv_loop polls (match p with
      | some c => rx ++ [c]
      | none => rx)

/-- The function `raw_send_command`: its result and `rx` afterwards.  A null
`ser` is `none`.  The result `rx.size()` is taken as it is: the device's
memory keeps it far below the range of `int`. -/
def raw_send_command (ser : Option Channel) (tx rx : Str) : Int × Str :=
  match ser with
  | none => (-1, rx)
  | some ch =>
    let to_send := tx.length
    let sent := send_loop to_send ch.writeable 0
    if sent < to_send then (-1, rx)
    else
      let rx1 := recv_loop ch.readable rx
      (rx1.length, rx1)

/-- The text `"OK"` that acknowledges a command. -/
def OK : Str := lit "OK"

/-- The call `rx.clear()`. -/
def clear (_ : Str) : Str := []

/-- The function `send_command`: its result and `rx` afterwards. -/
def send_command (ser : Option Channel) (tx rx : Str) : Bool × Str :=
  let r := raw_send_command ser tx (clear rx)
  if r.1 < 0 then (false, r.2)
  else if find r.2 OK 0 = none then (false, r.2)
  else (true, r.2)

/-! ## The program state -/

/-- The macro `M2X_DEVICE_ID`: the expected feed-id. -/
def M2X_DEVICE_ID : Str := lit "abd33486151a774aa48f91cee19aef4c"

/-- The macro `M2X_API_KEY`: the expected m2x-key. -/
def M2X_API_KEY : Str := lit "6db8947ab6bfe46738df7b4df43adc60"

/-- The macro `ALIAS`; it is defined, so the `#ifdef ALIAS` parts are in. -/
def ALIAS : Str := lit "ageofsaturation"

/-- The macro `ACC_X`. -/
def ACC_X : Str := lit "acc_x"

/-- The macro `ACC_Y`, which the source defines as "temp". -/
def ACC_Y : Str := lit "temp"

/-- The macro `ACC_Z`. -/
def ACC_Z : Str := lit "acc_z"

/-- The globals of `main.cpp` and the port they talk to.  `dot n` is what the
port does during the `n`-th command of the run (counted from 0), `issued` the
command texts handed to `raw_send_command` so far, oldest first.  `resets`
counts the entries into `soft_radio_reset`.  A `DigitalOut` holds 0 (the LED
is lit) or 1 (off). -/
structure World where
  dot : Nat → Channel
  issued : List Str
  triggers : List Str
  led_trig : Nat
  led_acc_y_is_pos : Nat
  led_acc_y_is_neg : Nat
  resets : Nat

/-- The call `send_command(&dot, tx, res)`: result, `res` afterwards, and the
state afterwards. -/
def dot_send_command (w : World) (tx res : Str) : (Bool × Str) × World :=
  (send_command (some (w.dot w.issued.length)) tx res, { w with issued := w.issued ++ [tx] })

/-- The function `configureMdot`, with `ALIAS` defined as it is in the source. -/
def configureMdot (w : World) : World :=
  let r1 := dot_send_command w (lit "ATSEND feed-id:" ++ M2X_DEVICE_ID) []
  let r2 := dot_send_command r1.2 (lit "ATSEND m2x-key:" ++ M2X_API_KEY) r1.1.2
  let r3 := dot_send_command r2.2 (lit "ATSEND alias:" ++ ALIAS) r2.1.2
  r3.2

/-- The text `"ATSEND subscribe:" << id << "-" << triggers[i]`. -/
def subscribe_cmd (id trigger : Str) : Str :=
  lit "ATSEND subscribe:" ++ id ++ lit "-" ++ trigger

/-- The function `subscribeTriggers`: three `push_back`s on the global
`triggers`, then one command for every element that `triggers` holds. -/
def subscribeTriggers (id : Str) (w : World) : World :=
  let w1 := { w with triggers := w.triggers ++ [ACC_X] }
  let w2 := { w1 with triggers := w1.triggers ++ [ACC_Y] }
  let w3 := { w2 with triggers := w2.triggers ++ [ACC_Z] }
  (w3.triggers.foldl
    (fun (st : World × Str) t =>
      let r := dot_send_command st.1 (subscribe_cmd id t) st.2
      (r.2, r.1.2))
    (w3, [])).1

/-- The function `getConfiguration`. -/
def getConfiguration (w : World) : World :=
  (dot_send_command w (lit "ATSEND config:") []).2

/-- The function `getSubscriptions`. -/
def getSubscriptions (w : World) : World :=
  (dot_send_command w (lit "ATSEND subs:") []).2

/-- The function `unsubscribeAllTriggers`. -/
def unsubscribeAllTriggers (w : World) : World :=
  (dot_send_command w (lit "ATSEND unsubscribe:all") []).2

/-- The banner that `soft_radio_reset` looks for. -/
def BANNER : Str := lit "MultiTech Systems LoRa XBee Module"

/-- The `while (!done)` loop of `soft_radio_reset`, with the local `res` as
an argument; the first argument bounds the number of attempts.  The result
says whether the loop ended (`done`) within the bound. -/
def reset_loop : Nat → World → Str → World × Bool
  | 0, w, _ => (w, false)
  | fuel + 1, w, res =>
    let r := raw_send_command (some (w.dot w.issued.length)) (lit "RESET") res
    let w1 := { w with issued := w.issued ++ [lit "RESET"] }
    if find r.2 BANNER 0 ≠ none ∧ find r.2 (lit "mDot:") 0 ≠ none then (w1, true)
    else reset_loop fuel w1 r.2

/-- The function `soft_radio_reset`; the loop has no bound of its own. -/
def soft_radio_reset (fuel : Nat) (w : World) : World × Bool :=
  reset_loop fuel { w with resets := w.resets + 1 } []

/-! ## The message loop of `main` -/

/-- The branch that the verification of a `config` message ends in; each but
the first and the last prints its own "did not match" line. -/
inductive Verdict where
  | unverified
  | alias_mismatch
  | feed_id_mismatch
  | api_key_mismatch
  | configured
  deriving DecidableEq, Repr

/-- The verification of `config` (lines 268-290), `ALIAS` defined.  `id` is
the variable `id` of `main`. -/
def verify_config (id : Str) (config : MbedJSONValue) : Option Verdict :=
  if config.hasMember (lit "feed-id") && config.hasMember (lit "m2x-key") then
    (config.member (lit "feed-id")).get_string.bind fun dev_id =>
    (config.member (lit "m2x-key")).get_string.bind fun api_key =>
    let alias0 := id
    (if config.hasMember (lit "alias") && alias0 == ALIAS then
        (config.member (lit "alias")).get_string.map fun a => alias0 == a
      else some false).bind fun alias_ok =>
    if !alias_ok then some Verdict.alias_mismatch
    else if dev_id ≠ M2X_DEVICE_ID then some Verdict.feed_id_mismatch
    else if api_key ≠ M2X_API_KEY then some Verdict.api_key_mismatch
    else some Verdict.configured
  else some Verdict.unverified

/-- The body of the loop `for (int i = 0; i < messages.size(); i++)` for one
message (lines 259-361).  The `continue` of lines 297 and 314 ends the body
for this message.  The result is `none` where the source calls
`get<string>()` on a value that is not a string. -/
def process_message (id : Str) (w : World) (m : MbedJSONValue) : Option World :=
  if m.hasMember (lit "config") then
    (verify_config id (m.member (lit "config"))).map fun v =>
      let configured := decide (v = Verdict.configured)
      if !configured then getConfiguration (configureMdot w) else w
  else if m.hasMember (lit "subs") then
    let subs := m.member (lit "subs")
    if subs.size > 0 then subs.get_strings.map fun _ => w
    else some (getSubscriptions (subscribeTriggers id w))
  else if m.hasMember (lit "s") && m.hasMember (lit "v") then
    let w1 := { w with led_trig := 0 }
    let w2 := { w1 with led_trig := 1 }
    let w3 := { w2 with led_trig := 0 }
    let w4 := { w3 with led_trig := 1 }
    (m.member (lit "s")).get_string.bind fun stream =>
    let w5 :=
      if find stream (lit "acc_y") 0 ≠ none then
        let w6 := { w4 with led_acc_y_is_pos := 1, led_acc_y_is_neg := 1 }
        match m.member (lit "v") with
        | MbedJSONValue.int v =>
          if v > 0 then { w6 with led_acc_y_is_pos := 0 } else { w6 with led_acc_y_is_neg := 0 }
        | MbedJSONValue.double v =>
          if v > 0 then { w6 with led_acc_y_is_pos := 0 } else { w6 with led_acc_y_is_neg := 0 }
        | _ => w6
      else w4
    match m.member (lit "v") with
    | MbedJSONValue.int _ => some w5
    | MbedJSONValue.double _ => some w5
    | v => v.get_string.map fun _ => w5
  else some w

/-- The loop `for (int i = 0; i < messages.size(); i++)` over the parsed
messages. -/
def process_messages (id : Str) : World → List MbedJSONValue → Option World
  | w, [] => some w
  | w, m :: rest => (process_message id w m).bind fun w1 => process_messages id w1 rest

/-! ## The telemetry report -/

/-- The two telemetry commands of the report block (lines 383-403): the state
afterwards and the value of `call_check`.  `x` and `c` are the texts that the
stream writes for `acc_data.x` and for the temperature `c`. -/
def telemetry (w : World) (x c : Str) : World × Nat :=
  let call_check := 0
  let r1 := dot_send_command w (lit "ATSEND " ++ ACC_X ++ lit ":" ++ x) []
  let call_check := if !r1.1.1 then call_check + 1 else call_check
  let r2 := dot_send_command r1.2 (lit "ATSEND " ++ ACC_Y ++ lit ":" ++ c) r1.1.2
  let call_check := if !r2.1.1 then call_check + 1 else call_check
  (r2.2, call_check)

/-- The report block (lines 369-447) once its timer condition holds; `fuel`
bounds the attempts of the reset it may start. -/
def report (fuel : Nat) (w : World) (x c : Str) : World × Bool :=
  let t := telemetry w x c
  if t.2 > 1 then soft_radio_reset fuel t.1 else (t.1, true)

/-! ## One iteration of the loop of `main` -/

/-- One iteration of `while (true)` (lines 245-447): fetch with `ATRECV`,
parse and handle the messages when the command succeeded, then report when
`due` (`report_timer.read() > INTERVAL`).  `id` is the variable `id`, which
holds `ALIAS` from line 228 on. -/
def loop_iteration (P : JsonLib MbedJSONValue) (fuel : Nat) (id : Str) (w : World)
    (due : Bool) (x c : Str) : Option (World × Bool) :=
  let r := dot_send_command w (lit "ATRECV") []
  (if r.1.1 then process_messages id r.2 (parse_rx_messages P r.1.2) else some r.2).map
    fun w1 => if due then report fuel w1 x c else (w1, true)

/-! ## Message shapes -/

/-- A `ConfigMessage` of the data model: a document with a member `config`
that holds the strings `feed-id` and `m2x-key` and, when `alias0` is `some a`,
the string `alias`. -/
def ConfigMessage (m : MbedJSONValue) (feedId apiKey : Str) (alias0 : Option Str) : Prop :=
  m.hasMember (lit "config") = true ∧
  (m.member (lit "config")).hasMember (lit "feed-id") = true ∧
  (m.member (lit "config")).member (lit "feed-id") = MbedJSONValue.string feedId ∧
  (m.member (lit "config")).hasMember (lit "m2x-key") = true ∧
  (m.member (lit "config")).member (lit "m2x-key") = MbedJSONValue.string apiKey ∧
  match alias0 with
  | some a => (m.member (lit "config")).hasMember (lit "alias") = true ∧
      (m.member (lit "config")).member (lit "alias") = MbedJSONValue.string a
  | none => (m.member (lit "config")).hasMember (lit "alias") = false

/-- A `SubscriptionsMessage` with an empty list: no member `config`, a member
`subs` of size 0. -/
def EmptySubscriptions (m : MbedJSONValue) : Prop :=
  m.hasMember (lit "config") = false ∧ m.hasMember (lit "subs") = true ∧
  (m.member (lit "subs")).size = 0

/-- A `TriggerMessage` of the data model: members `s` (the stream name, a
string) and `v` (the value), and neither `config` nor `subs`. -/
def TriggerMessage (m : MbedJSONValue) (stream : Str) (value : MbedJSONValue) : Prop :=
  m.hasMember (lit "config") = false ∧ m.hasMember (lit "subs") = false ∧
  m.hasMember (lit "s") = true ∧ m.hasMember (lit "v") = true ∧
  m.member (lit "s") = MbedJSONValue.string stream ∧ m.member (lit "v") = value

/-- The commands of a reconfiguration: those of `configureMdot`, then the
request of `getConfiguration`. -/
def RECONFIGURATION : List Str :=
  [lit "ATSEND feed-id:" ++ M2X_DEVICE_ID, lit "ATSEND m2x-key:" ++ M2X_API_KEY,
    lit "ATSEND alias:" ++ ALIAS, lit "ATSEND config:"]

/-- The document `{"config":{"feed-id":f,"m2x-key":k,"alias":a}}`, without
the alias when `a` is `none`. -/
def config_message (f k : Str) (a : Option Str) : MbedJSONValue :=
  MbedJSONValue.object [(lit "config", MbedJSONValue.object
    ([(lit "feed-id", MbedJSONValue.string f), (lit "m2x-key", MbedJSONValue.string k)] ++
      match a with
      | some x => [(lit "alias", MbedJSONValue.string x)]
      | none => []))]

/-- The document `{"subs":[]}`. -/
def empty_subs : MbedJSONValue :=
  MbedJSONValue.object [(lit "subs", MbedJSONValue.array [])]

/-- The document `{"s":stream,"v":v}` with an integer `v`. -/
def trigger_message (stream : Str) (v : Int) : MbedJSONValue :=
  MbedJSONValue.object [(lit "s", MbedJSONValue.string stream), (lit "v", MbedJSONValue.int v)]

/-! ## Fixtures for the examples -/

/-- A port on which nothing can be written and nothing arrives. -/
def silent : Channel := ⟨[], []⟩

/-- A port that takes every character of a command of up to `n` characters
and then delivers `text`. -/
def answering (n : Nat) (text : Str) : Channel :=
  ⟨List.replicate n true, (text.map some) ++ [none]⟩

/-- The state at the start of `main`: LEDs off, no trigger registered. -/
def start (dot : Nat → Channel) : World :=
  ⟨dot, [], [], 1, 1, 1, 0⟩

/-- The port of a run in which the first reset attempt is answered by the
banner alone and every later one by the prompt alone. -/
def banner_then_prompt (n : Nat) : Channel :=
  if n = 0 then answering 5 (BANNER ++ lit "\r\n") else answering 5 (lit "mDot: ")

/-- The text `{"a":1}`. -/
def textA : Str := lit "\x7b\"a\":1\x7d"

/-- The text `{"b":2}`. -/
def textB : Str := lit "\x7b\"b\":2\x7d"

/-- The document of `textA`. -/
def docA : MbedJSONValue := MbedJSONValue.object [(lit "a", MbedJSONValue.int 1)]

/-- The document of `textB`. -/
def docB : MbedJSONValue := MbedJSONValue.object [(lit "b", MbedJSONValue.int 2)]

/-- A stand-in for the library's parser on the few texts of the examples:
it gives what a JSON parser gives on them, and rejects every other text,
leaving `out` as it was. -/
def demo_parse (out : MbedJSONValue) (text : Str) : MbedJSONValue × Str :=
  if text = textA then (docA, [])
  else if text = textB then (docB, [])
  else (out, lit "syntax error")

/-- The parameters of `parse_rx_messages` in the examples. -/
def demo : JsonLib MbedJSONValue := ⟨MbedJSONValue.null, demo_parse⟩

/-! # Properties -/

/-! ### Lemmas on `find` -/

theorem findFrom_single_none (c : Char) (g : Str) (i : Nat) (h : c ∉ g) :
    findFrom [c] g i = none := by
  induction g generalizing i with
  | nil => simp [findFrom]
  | cons x xs ih =>
    have hx : c ≠ x := fun e => h (e ▸ List.mem_cons_self _ _)
    have hxs : c ∉ xs := fun e => h (List.mem_cons_of_mem _ e)
    simp [findFrom, List.isPrefixOf, hx, ih _ hxs]

theorem findFrom_single_skip (c : Char) (g t : Str) (i : Nat) (h : c ∉ g) :
    findFrom [c] (g ++ t) i = findFrom [c] t (i + g.length) := by
  induction g generalizing i with
  | nil => simp
  | cons x xs ih =>
    have hx : c ≠ x := fun e => h (e ▸ List.mem_cons_self _ _)
    have hxs : c ∉ xs := fun e => h (List.mem_cons_of_mem _ e)
    simp [findFrom, List.isPrefixOf, hx, ih _ hxs]
    congr 1
    omega

theorem findFrom_single_here (c : Char) (t : Str) (i : Nat) :
    findFrom [c] (c :: t) i = some i := by
  simp [findFrom, List.isPrefixOf]

theorem find_at (pre rest pat : Str) :
    find (pre ++ rest) pat pre.length = findFrom pat rest pre.length := by
  simp [find]

/-! ### One iteration of the parser's loop -/

theorem parse_loop_none {J : Type} (P : JsonLib J) (m : Str) (fuel : Nat) (msgs : List J)
    (count : Nat) : parse_loop P m fuel none msgs count = msgs := by
  cases fuel <;> rfl

/-- One iteration on a candidate `o` that is followed by a carriage return. -/
theorem parse_loop_line {J : Type} (P : JsonLib J) (m pre o g rest : Str) (fuel : Nat)
    (msgs : List J) (count : Nat) (hm : m = pre ++ (o ++ CR :: (g ++ rest)))
    (hcr : CR ∉ o) (hg : LBRACE ∉ g) :
    parse_loop P m (fuel + 1) (some pre.length) msgs count =
      parse_loop P m fuel (findFrom [LBRACE] rest (pre ++ (o ++ CR :: g)).length)
        (store msgs count (P.parse (slot P msgs count) o).1)
        (if (P.parse (slot P msgs count) o).2 ≠ [] then count else count + 1) := by
  have hend : find m [CR] pre.length = some (pre.length + o.length) := by
    rw [hm, find_at, findFrom_single_skip _ _ _ _ hcr, findFrom_single_here]
  have hcand : candidate m pre.length (some (pre.length + o.length)) = o := by
    simp [candidate, hm]
  have hcg : LBRACE ∉ CR :: g := by
    intro h
    rcases List.mem_cons.1 h with h | h
    · exact absurd h (by decide)
    · exact hg h
  have hnext : next_object m (some (pre.length + o.length)) =
      findFrom [LBRACE] rest (pre ++ (o ++ CR :: g)).length := by
    have e1 : m = (pre ++ o) ++ ((CR :: g) ++ rest) := by simp [hm]
    have e2 : pre.length + o.length = (pre ++ o).length := by simp
    rw [next_object, e2, e1, find_at, findFrom_single_skip _ _ _ _ hcg]
    congr 1
    simp
    omega
  rw [parse_loop]
  simp only [hend, hcand, hnext]

/-- One iteration on a candidate `o` that runs to the end of the buffer. -/
theorem parse_loop_last {J : Type} (P : JsonLib J) (m pre o : Str) (fuel : Nat)
    (msgs : List J) (count : Nat) (hm : m = pre ++ o) (hcr : CR ∉ o) :
    parse_loop P m (fuel + 1) (some pre.length) msgs count =
      store msgs count (P.parse (slot P msgs count) o).1 := by
  have hend : find m [CR] pre.length = none := by
    rw [hm, find_at, findFrom_single_none _ _ _ hcr]
  have hcand : candidate m pre.length none = o := by
    simp [candidate, hm]
  rw [parse_loop]
  simp only [hend, hcand, next_object, parse_loop_none]

/-! ### The loop's bound is never reached -/

theorem findFrom_single_some (c : Char) (s : Str) (i j : Nat)
    (h : findFrom [c] s i = some j) : i ≤ j ∧ j - i < s.length ∧ s[j - i]? = some c := by
  induction s generalizing i with
  | nil => simp [findFrom] at h
  | cons x xs ih =>
    by_cases hx : c = x
    · subst hx
      rw [findFrom_single_here] at h
      cases h
      simp
    · have h2 : findFrom [c] xs (i + 1) = some j := by
        simpa [findFrom, List.isPrefixOf, hx] using h
      obtain ⟨h3, h4, h5⟩ := ih _ h2
      have e : j - i = (j - (i + 1)) + 1 := by omega
      refine ⟨by omega, ?_, ?_⟩
      · rw [e]
        simpa using h4
      · rw [e]
        simpa using h5

theorem find_single_some (c : Char) (m : Str) (p j : Nat) (h : find m [c] p = some j) :
    p ≤ j ∧ j < m.length ∧ m[j]? = some c := by
  unfold find at h
  split at h
  · rename_i hp
    obtain ⟨h1, h2, h3⟩ := findFrom_single_some _ _ _ _ h
    rw [List.length_drop] at h2
    refine ⟨h1, by omega, ?_⟩
    rw [List.getElem?_drop] at h3
    have e : p + (j - p) = j := by omega
    rwa [e] at h3
  · cases h

/-- The position of the next candidate is past the current one. -/
theorem next_object_gt (m : Str) (b b2 : Nat)
    (h : next_object m (find m [CR] b) = some b2) : b < b2 ∧ b2 < m.length := by
  cases he : find m [CR] b with
  | none => simp [he, next_object] at h
  | some e =>
    rw [he] at h
    obtain ⟨h1, _, h3⟩ := find_single_some _ _ _ _ he
    obtain ⟨k1, k2, k3⟩ := find_single_some _ _ _ _ h
    refine ⟨?_, k2⟩
    rcases Nat.lt_or_ge e b2 with hlt | hge
    · omega
    · have e2 : b2 = e := by omega
      rw [e2, h3] at k3
      exact absurd (Option.some.inj k3) (by decide)

/-- Any two bounds that exceed the number of characters left give the same
result: the loop stops by itself. -/
theorem parse_loop_fuel {J : Type} (P : JsonLib J) (m : Str) :
    ∀ (f1 f2 : Nat) (beg : Option Nat) (msgs : List J) (count : Nat),
      (∀ b ∈ beg, m.length - b < f1 ∧ m.length - b < f2) →
      parse_loop P m f1 beg msgs count = parse_loop P m f2 beg msgs count := by
  intro f1
  induction f1 with
  | zero =>
    intro f2 beg msgs count h
    cases beg with
    | none => simp [parse_loop_none]
    | some b => exact absurd (h b rfl).1 (by omega)
  | succ k1 ih =>
    intro f2 beg msgs count h
    cases beg with
    | none => simp [parse_loop_none]
    | some b =>
      obtain ⟨h1, h2⟩ := h b rfl
      obtain ⟨k2, rfl⟩ : ∃ k2, f2 = k2 + 1 := ⟨f2 - 1, by omega⟩
      rw [parse_loop, parse_loop]
      apply ih
      intro b2 hb2
      obtain ⟨g1, g2⟩ := next_object_gt m b b2 hb2
      omega

/-- The bound that `parse_rx_messages` uses is enough for every buffer: a
larger one changes nothing. -/
theorem parse_rx_messages_fuel {J : Type} (P : JsonLib J) (m : Str) (fuel : Nat)
    (h : m.length + 1 ≤ fuel) :
    parse_loop P m fuel (find m [LBRACE] 0) [] 0 = parse_rx_messages P m := by
  unfold parse_rx_messages
  apply parse_loop_fuel
  intro b _
  omega

/-! ### Buffers of lines -/

theorem store_length {J : Type} (msgs : List J) (v : J) :
    store msgs msgs.length v = msgs ++ [v] := by
  simp [store]

/-- The loop on a buffer of well-formed lines appends their documents in order. -/
theorem parse_loop_frame {J : Type} (P : JsonLib J) (m : Str) (last : Option (Str × J))
    (hlast : ∀ t ∈ last, WellFormed P t.1 t.2) :
    ∀ (lines : List (Str × Str × J)),
      (∀ c ∈ lines, WellFormed P c.1 c.2.2 ∧ LBRACE ∉ c.2.1) →
      ∀ (pre : Str) (msgs : List J) (fuel : Nat),
        m = pre ++ (frame lines ++ tail_text last) →
        (frame lines ++ tail_text last).length < fuel →
        parse_loop P m fuel (findFrom [LBRACE] (frame lines ++ tail_text last) pre.length)
            msgs msgs.length =
          msgs ++ (lines.map (fun c => c.2.2) ++ tail_docs last) := by
  intro lines
  induction lines with
  | nil =>
    intro _ pre msgs fuel hm hfuel
    cases last with
    | none => simp [frame, tail_text, tail_docs, findFrom, parse_loop_none]
    | some t =>
      obtain ⟨⟨body, hb⟩, hcr, hp⟩ := hlast t rfl
      obtain ⟨k, rfl⟩ : ∃ k, fuel = k + 1 := ⟨fuel - 1, by omega⟩
      have hm2 : m = pre ++ t.1 := by simpa [frame, tail_text] using hm
      simp only [frame, tail_text, tail_docs, List.nil_append, List.map_nil]
      rw [hb, findFrom_single_here, parse_loop_last P m pre t.1 k msgs _ hm2 hcr, hp,
        store_length]
  | cons c rest ih =>
    intro hl pre msgs fuel hm hfuel
    obtain ⟨⟨⟨body, hb⟩, hcr, hp⟩, hg⟩ := hl c (List.mem_cons_self _ _)
    have hrest : ∀ d ∈ rest, WellFormed P d.1 d.2.2 ∧ LBRACE ∉ d.2.1 :=
      fun d hd => hl d (List.mem_cons_of_mem _ hd)
    have hlen : (frame (c :: rest) ++ tail_text last).length =
        c.1.length + 1 + c.2.1.length + (frame rest ++ tail_text last).length := by
      simp [frame]
      omega
    obtain ⟨k, rfl⟩ : ∃ k, fuel = k + 1 := ⟨fuel - 1, by omega⟩
    have hm2 : m = pre ++ (c.1 ++ CR :: (c.2.1 ++ (frame rest ++ tail_text last))) := by
      simpa [frame] using hm
    have hhead : findFrom [LBRACE] (frame (c :: rest) ++ tail_text last) pre.length =
        some pre.length := by
      simp only [frame]
      rw [hb]
      exact findFrom_single_here _ _ _
    rw [hhead, parse_loop_line P m pre c.1 c.2.1 _ k msgs _ hm2 hcr hg, hp]
    simp only [ne_eq, not_true_eq_false, if_false, store_length]
    have hm3 : m = (pre ++ (c.1 ++ CR :: c.2.1)) ++ (frame rest ++ tail_text last) := by
      simp [hm2]
    have := ih hrest (pre ++ (c.1 ++ CR :: c.2.1)) (msgs ++ [c.2.2]) k hm3 (by omega)
    simp only [List.length_append, List.length_singleton] at this ⊢
    rw [this]
    simp

/-- C1 (amended): on a buffer of N well-formed JSON objects, each starting at
a `{`, holding no carriage return and directly followed by one (the last may
instead end the buffer), with text free of `{` before the first object and
between a carriage return and the next object, `parse_rx_messages` returns
exactly the N documents in the order of the buffer. -/
theorem parse_rx_messages_lines {J : Type} (P : JsonLib J) (g0 : Str)
    (lines : List (Str × Str × J)) (last : Option (Str × J))
    (hg0 : LBRACE ∉ g0)
    (hlines : ∀ c ∈ lines, WellFormed P c.1 c.2.2 ∧ LBRACE ∉ c.2.1)
    (hlast : ∀ t ∈ last, WellFormed P t.1 t.2) :
    parse_rx_messages P (g0 ++ (frame lines ++ tail_text last)) =
      lines.map (fun c => c.2.2) ++ tail_docs last := by
  unfold parse_rx_messages
  have h0 : find (g0 ++ (frame lines ++ tail_text last)) [LBRACE] 0 =
      findFrom [LBRACE] (frame lines ++ tail_text last) g0.length := by
    have := find_at [] (g0 ++ (frame lines ++ tail_text last)) [LBRACE]
    simp only [List.nil_append, List.length_nil] at this
    rw [this, findFrom_single_skip _ _ _ _ hg0]
    simp
  rw [h0]
  have := parse_loop_frame P _ last hlast lines hlines g0 [] 
    ((g0 ++ (frame lines ++ tail_text last)).length + 1) rfl (by simp; omega)
  simpa using this

theorem wfA : WellFormed demo textA docA :=
  ⟨⟨_, rfl⟩, by decide, fun _ => rfl⟩

theorem wfB : WellFormed demo textB docB :=
  ⟨⟨_, rfl⟩, by decide, fun _ => rfl⟩

/-- The bound of `parse_rx_messages` at a one-line buffer. -/
theorem parse_rx_messages_fuel_witness :
    (textA ++ [CR]).length + 1 ≤ 20 ∧
    parse_loop demo (textA ++ [CR]) 20 (find (textA ++ [CR]) [LBRACE] 0) [] 0 =
      parse_rx_messages demo (textA ++ [CR]) :=
  ⟨by decide, parse_rx_messages_fuel demo _ 20 (by decide)⟩

/-- C1 (amended) at a reply of two JSON lines between an echo and the prompt. -/
theorem parse_rx_messages_lines_witness :
    LBRACE ∉ lit "ATRECV\r\n" ∧
    (∀ c ∈ [(textA, lit "\n", docA), (textB, lit "\nOK\r\nmDot: ", docB)],
      WellFormed demo c.1 c.2.2 ∧ LBRACE ∉ c.2.1) ∧
    parse_rx_messages demo (lit "ATRECV\r\n" ++
      (frame [(textA, lit "\n", docA), (textB, lit "\nOK\r\nmDot: ", docB)] ++
        tail_text (none : Option (Str × MbedJSONValue)))) = [docA, docB] ∧
    lit "ATRECV\r\n" ++
      (frame [(textA, lit "\n", docA), (textB, lit "\nOK\r\nmDot: ", docB)] ++
        tail_text (none : Option (Str × MbedJSONValue))) =
      lit "ATRECV\r\n\x7b\"a\":1\x7d\r\n\x7b\"b\":2\x7d\r\nOK\r\nmDot: " :=
  have h1 : LBRACE ∉ lit "ATRECV\r\n" := by decide
  have h2 : ∀ c ∈ [(textA, lit "\n", docA), (textB, lit "\nOK\r\nmDot: ", docB)],
      WellFormed demo c.1 c.2.2 ∧ LBRACE ∉ c.2.1 := by
    intro c hc
    simp only [List.mem_cons, List.mem_singleton, List.not_mem_nil, or_false] at hc
    rcases hc with rfl | rfl
    · exact ⟨wfA, by decide⟩
    · exact ⟨wfB, by decide⟩
  ⟨h1, h2, parse_rx_messages_lines demo _ _ none h1 h2 (fun _ h => nomatch h), by decide⟩

/-- C1 as stated fails: with the non-JSON text `{ ` between the first and
the second of three well-formed objects, the candidate of the second line
starts at that `{`, fails to parse and takes the second object with it; two
documents are returned, not three. -/
theorem parse_rx_messages_brace_in_gap :
    WellFormed demo textA docA ∧ WellFormed demo textB docB ∧
    lit "\x7b\"a\":1\x7d\r\n\x7b \x7b\"b\":2\x7d\r\n\x7b\"a\":1\x7d\r\n" =
      textA ++ CR :: lit "\n" ++ lit "\x7b " ++ (textB ++ CR :: lit "\n") ++
        (textA ++ CR :: lit "\n") ∧
    parse_rx_messages demo
        (lit "\x7b\"a\":1\x7d\r\n\x7b \x7b\"b\":2\x7d\r\n\x7b\"a\":1\x7d\r\n") =
      [docA, docA] ∧
    parse_rx_messages demo
        (lit "\x7b\"a\":1\x7d\r\n\x7b \x7b\"b\":2\x7d\r\n\x7b\"a\":1\x7d\r\n") ≠
      [docA, docB, docA] := by
  have h : parse_rx_messages demo
      (lit "\x7b\"a\":1\x7d\r\n\x7b \x7b\"b\":2\x7d\r\n\x7b\"a\":1\x7d\r\n") =
      [docA, docA] := by rfl
  refine ⟨wfA, wfB, by decide, h, ?_⟩
  rw [h]
  intro e
  exact absurd (congrArg List.length e) (by decide)

/-- The receive loop only appends characters that the port delivers. -/
theorem recv_loop_appends (polls : List (Option Char)) (rx : Str) :
    ∃ k, recv_loop polls rx = rx ++ (polls.take k).reduceOption := by
  induction polls generalizing rx with
  | nil => exact ⟨0, by simp [recv_loop]⟩
  | cons p polls ih =>
    unfold recv_loop
    split_ifs with h
    · exact ⟨0, by simp⟩
    · cases p with
      | none =>
        obtain ⟨k, hk⟩ := ih rx
        exact ⟨k + 1, by simp [hk, List.reduceOption_cons_of_none]⟩
      | some c =>
        obtain ⟨k, hk⟩ := ih (rx ++ [c])
        exact ⟨k + 1, by simp [hk, List.reduceOption_cons_of_some]⟩

theorem send_loop_eq (n : Nat) (polls : List Bool) (s : Nat) (h : s ≤ n) :
    send_loop n polls s = min n (s + polls.count true) := by
  induction polls generalizing s with
  | nil => simp [send_loop, h]
  | cons w polls ih =>
    rw [send_loop]
    by_cases hs : s < n
    · rw [if_pos hs]
      cases w with
      | false =>
        simp only [Bool.false_eq_true, if_false]
        rw [ih s h]
        simp
      | true =>
        simp only [if_true]
        rw [ih (s + 1) (by omega)]
        simp only [List.count_cons_self]
        congr 1
        omega
    · rw [if_neg hs]
      have : s = n := by omega
      subst this
      simp

theorem recv_loop_stops (polls : List (Option Char)) (rx : Str) :
    rx_done (recv_loop polls rx) EXPECT = true ∨
      recv_loop polls rx = rx ++ polls.reduceOption := by
  induction polls generalizing rx with
  | nil => right; simp [recv_loop]
  | cons q polls ih =>
    unfold recv_loop
    split_ifs with hd
    · left; exact hd
    · cases q with
      | none =>
        rcases ih rx with h | h
        · left; exact h
        · right; simpa [List.reduceOption_cons_of_none] using h
      | some c =>
        rcases ih (rx ++ [c]) with h | h
        · left; exact h
        · right; simpa [List.reduceOption_cons_of_some] using h

theorem recv_loop_first (polls : List (Option Char)) (rx p : Str)
    (hp : p <+: recv_loop polls rx) (hlen : rx.length ≤ p.length)
    (hne : p.length < (recv_loop polls rx).length) : rx_done p EXPECT = false := by
  induction polls generalizing rx with
  | nil => simp [recv_loop] at hne; omega
  | cons q polls ih =>
    unfold recv_loop at hp hne
    by_cases hd : rx_done rx EXPECT = true
    · simp only [hd, if_true] at hne
      omega
    · simp only [hd] at hp hne
      cases q with
      | none => exact ih rx hp hlen hne
      | some c =>
        simp only [Bool.false_eq_true, if_false] at hp hne
        rcases Nat.eq_or_lt_of_le hlen with he | hlt
        · obtain ⟨k, hk⟩ := recv_loop_appends polls (rx ++ [c])
          have hrx : rx <+: recv_loop polls (rx ++ [c]) := by
            rw [hk, List.append_assoc]
            exact List.prefix_append _ _
          have hpr : p <+: rx := List.prefix_of_prefix_length_le hp hrx (by omega)
          have : p = rx := hpr.eq_of_length he.symm
          rw [this]
          simpa using hd
        · exact ih (rx ++ [c]) hp (by simp; omega) hne

/-- C3: `send_command` returns true exactly when the `rx` it hands back
contains "OK"; when the send step fails (null port, or not every character
written within the deadline, that is fewer writeable polls than characters)
it returns false with an empty `rx`; a response without "OK", empty or
partial, gives false; and `rx` is built from nothing but the characters that
the port delivers during this command, whatever `rx` held before: once the
command is written, `rx` is the response read up to and including the first
point at which it holds the prompt, or the whole response when the deadline
comes first.  The last five parts are a prompt answer with "OK", one
without, a partial answer, an incomplete send, and an "OK" that arrives
after the prompt and is not read. -/
theorem send_command_ok_iff (ser : Option Channel) (tx rx : Str) :
    ((send_command ser tx rx).1 = true ↔ find (send_command ser tx rx).2 OK 0 ≠ none) ∧
    (ser = none → send_command ser tx rx = (false, [])) ∧
    (∀ ch, ser = some ch → send_loop tx.length ch.writeable 0 < tx.length →
      send_command ser tx rx = (false, [])) ∧
    (find (send_command ser tx rx).2 OK 0 = none → (send_command ser tx rx).1 = false) ∧
    send_command ser tx rx = send_command ser tx [] ∧
    (∀ ch, ser = some ch → (send_command ser tx rx).2 <+: ch.readable.reduceOption) ∧
    (∀ ch, ser = some ch → ch.writeable.count true < tx.length →
      send_command ser tx rx = (false, [])) ∧
    (∀ ch, ser = some ch → tx.length ≤ ch.writeable.count true →
      (rx_done (send_command ser tx rx).2 EXPECT = true ∨
        (send_command ser tx rx).2 = ch.readable.reduceOption) ∧
      ∀ p, p <+: (send_command ser tx rx).2 → p ≠ (send_command ser tx rx).2 →
        rx_done p EXPECT = false) ∧
    send_command (some (answering 6 (lit "OK\r\nmDot: "))) (lit "ATRECV") (lit "old") =
      (true, lit "OK\r\nmDot: ") ∧
    send_command (some (answering 6 (lit "ERROR\r\nmDot: "))) (lit "ATRECV") (lit "old") =
      (false, lit "ERROR\r\nmDot: ") ∧
    send_command (some (answering 6 (lit "O"))) (lit "ATRECV") (lit "old") =
      (false, lit "O") ∧
    send_command (some (answering 5 (lit "OK\r\nmDot: "))) (lit "ATRECV") (lit "old") =
      (false, []) ∧
    send_command (some (answering 6 (lit "mDot: OK"))) (lit "ATRECV") (lit "old") =
      (false, lit "mDot: ") := by
  have hok : OK ≠ [] := by decide
  have hiff : (send_command ser tx rx).1 = true ↔
      find (send_command ser tx rx).2 OK 0 ≠ none := by
    cases ser with
    | none => simp [send_command, raw_send_command, clear, find, findFrom, hok]
    | some ch =>
      unfold send_command raw_send_command
      by_cases hs : send_loop tx.length ch.writeable 0 < tx.length
      · simp [hs, clear, find, findFrom, hok]
      · simp only [hs, if_false]
        have hnn : ¬ ((recv_loop ch.readable (clear rx)).length : Int) < 0 := by omega
        simp only [hnn, if_false]
        split_ifs with h <;> simp [h]
  have hsend : ∀ ch : Channel, send_loop tx.length ch.writeable 0 =
      min tx.length (ch.writeable.count true) := by
    intro ch
    simpa using send_loop_eq tx.length ch.writeable 0 (Nat.zero_le _)
  have hrx : ∀ ch : Channel, tx.length ≤ ch.writeable.count true →
      (send_command (some ch) tx rx).2 = recv_loop ch.readable [] := by
    intro ch hc
    have hs : ¬ send_loop tx.length ch.writeable 0 < tx.length := by
      rw [hsend]
      omega
    unfold send_command raw_send_command
    simp only [hs, if_false, clear]
    split_ifs <;> rfl
  have hcases :
      send_command (some (answering 6 (lit "OK\r\nmDot: "))) (lit "ATRECV") (lit "old") =
        (true, lit "OK\r\nmDot: ") ∧
      send_command (some (answering 6 (lit "ERROR\r\nmDot: "))) (lit "ATRECV") (lit "old") =
        (false, lit "ERROR\r\nmDot: ") ∧
      send_command (some (answering 6 (lit "O"))) (lit "ATRECV") (lit "old") =
        (false, lit "O") ∧
      send_command (some (answering 5 (lit "OK\r\nmDot: "))) (lit "ATRECV") (lit "old") =
        (false, []) ∧
      send_command (some (answering 6 (lit "mDot: OK"))) (lit "ATRECV") (lit "old") =
        (false, lit "mDot: ") := by decide
  refine ⟨hiff, ?_, ?_, ?_, rfl, ?_, ?_, ?_, hcases⟩
  · rintro rfl
    simp [send_command, raw_send_command, clear]
  · rintro ch rfl hs
    simp [send_command, raw_send_command, clear, hs]
  · intro h
    cases hb : (send_command ser tx rx).1 with
    | false => rfl
    | true => exact absurd h (hiff.1 hb)
  · rintro ch rfl
    unfold send_command raw_send_command
    by_cases hs : send_loop tx.length ch.writeable 0 < tx.length
    · simp [hs, clear]
    · obtain ⟨k, hk⟩ := recv_loop_appends ch.readable (clear rx)
      have hp : (recv_loop ch.readable (clear rx)) <+: ch.readable.reduceOption := by
        rw [hk]
        simp only [clear, List.nil_append]
        exact (List.take_prefix k ch.readable).filterMap id
      simp only [hs, if_false]
      split_ifs <;> exact hp
  · rintro ch rfl hc
    have hs : send_loop tx.length ch.writeable 0 < tx.length := by
      rw [hsend]
      omega
    simp [send_command, raw_send_command, clear, hs]
  · rintro ch rfl hc
    rw [hrx ch hc]
    refine ⟨?_, ?_⟩
    · simpa using recv_loop_stops ch.readable []
    · intro p hp hne
      refine recv_loop_first ch.readable [] p hp (Nat.zero_le _) ?_
      rcases Nat.lt_or_ge p.length (recv_loop ch.readable []).length with h | h
      · exact h
      · exact absurd (hp.eq_of_length (Nat.le_antisymm hp.length_le h)) hne

/-! ### Configuration messages -/

theorem reconfigure_eq (w : World) :
    getConfiguration (configureMdot w) = { w with issued := w.issued ++ RECONFIGURATION } := by
  simp [getConfiguration, configureMdot, dot_send_command, RECONFIGURATION]

/-- C4: a `ConfigMessage` whose feed-id, m2x-key and alias all equal the
expected credentials is judged configured and issues no command; one whose
m2x-key differs from the expected key issues exactly the commands
`ATSEND feed-id:<id>`, `ATSEND m2x-key:<key>`, `ATSEND alias:<alias>`,
`ATSEND config:` in that order, whatever the port answers to each. -/
theorem config_message_commands (w : World) (m : MbedJSONValue) (feedId apiKey : Str)
    (alias0 : Option Str) (h : ConfigMessage m feedId apiKey alias0) :
    (feedId = M2X_DEVICE_ID → apiKey = M2X_API_KEY → alias0 = some ALIAS →
      verify_config ALIAS (m.member (lit "config")) = some Verdict.configured ∧
      process_message ALIAS w m = some w) ∧
    (apiKey ≠ M2X_API_KEY →
      process_message ALIAS w m = some { w with issued := w.issued ++ RECONFIGURATION }) := by
  obtain ⟨hc, hf, hfv, hk, hkv, ha⟩ := h
  constructor
  · rintro rfl rfl rfl
    obtain ⟨ha1, ha2⟩ := ha
    have hv : verify_config ALIAS (m.member (lit "config")) = some Verdict.configured := by
      simp [verify_config, hf, hfv, hk, hkv, ha1, ha2, MbedJSONValue.get_string]
    refine ⟨hv, ?_⟩
    simp [process_message, hc, hv]
  · intro hne
    have hv : ∃ v, verify_config ALIAS (m.member (lit "config")) = some v ∧
        v ≠ Verdict.configured := by
      cases alias0 with
      | none =>
        refine ⟨Verdict.alias_mismatch, ?_, by decide⟩
        simp [verify_config, hf, hfv, hk, hkv, ha, MbedJSONValue.get_string]
      | some a =>
        obtain ⟨ha1, ha2⟩ := ha
        by_cases hal : ALIAS = a
        · by_cases hfe : feedId = M2X_DEVICE_ID
          · refine ⟨Verdict.api_key_mismatch, ?_, by decide⟩
            simp [verify_config, hf, hfv, hk, hkv, ha1, ha2, MbedJSONValue.get_string, hal, hfe,
              hne]
          · refine ⟨Verdict.feed_id_mismatch, ?_, by decide⟩
            simp [verify_config, hf, hfv, hk, hkv, ha1, ha2, MbedJSONValue.get_string, hal, hfe]
        · refine ⟨Verdict.alias_mismatch, ?_, by decide⟩
          simp [verify_config, hf, hfv, hk, hkv, ha1, ha2, MbedJSONValue.get_string, hal]
    obtain ⟨v, hv, hvn⟩ := hv
    simp [process_message, hc, hv, hvn, reconfigure_eq]

/-- C4 at a message with the expected credentials and at one with another key. -/
theorem config_message_commands_witness :
    ConfigMessage (config_message M2X_DEVICE_ID (lit "0000") (some ALIAS))
      M2X_DEVICE_ID (lit "0000") (some ALIAS) ∧
    process_message ALIAS (start fun _ => silent)
        (config_message M2X_DEVICE_ID (lit "0000") (some ALIAS)) =
      some { (start fun _ => silent) with issued := [] ++ RECONFIGURATION } ∧
    process_message ALIAS (start fun _ => silent)
        (config_message M2X_DEVICE_ID M2X_API_KEY (some ALIAS)) =
      some (start fun _ => silent) ∧
    RECONFIGURATION =
      [lit "ATSEND feed-id:abd33486151a774aa48f91cee19aef4c",
        lit "ATSEND m2x-key:6db8947ab6bfe46738df7b4df43adc60",
        lit "ATSEND alias:ageofsaturation", lit "ATSEND config:"] :=
  have h : ConfigMessage (config_message M2X_DEVICE_ID (lit "0000") (some ALIAS))
      M2X_DEVICE_ID (lit "0000") (some ALIAS) := ⟨rfl, rfl, rfl, rfl, rfl, rfl, rfl⟩
  have h2 : ConfigMessage (config_message M2X_DEVICE_ID M2X_API_KEY (some ALIAS))
      M2X_DEVICE_ID M2X_API_KEY (some ALIAS) := ⟨rfl, rfl, rfl, rfl, rfl, rfl, rfl⟩
  ⟨h, (config_message_commands _ _ _ _ _ h).2 (by decide),
    ((config_message_commands _ _ _ _ _ h2).1 rfl rfl rfl).2, by decide⟩

/-! ### Alias verification -/

/-- C10 (amended): with alias support enabled, a `ConfigMessage` whose alias
is absent or differs from the expected alias ends the verification in the
alias branch, whatever its feed-id and m2x-key are (their checks are the
`else` of the alias check and do not run); the verdict is not configured and
the reconfiguration commands are issued. -/
theorem alias_mismatch_reconfigures (w : World) (m : MbedJSONValue) (feedId apiKey : Str)
    (alias0 : Option Str) (h : ConfigMessage m feedId apiKey alias0)
    (ha : alias0 ≠ some ALIAS) :
    verify_config ALIAS (m.member (lit "config")) = some Verdict.alias_mismatch ∧
    process_message ALIAS w m = some { w with issued := w.issued ++ RECONFIGURATION } := by
  obtain ⟨hc, hf, hfv, hk, hkv, hal⟩ := h
  have hv : verify_config ALIAS (m.member (lit "config")) = some Verdict.alias_mismatch := by
    cases alias0 with
    | none => simp [verify_config, hf, hfv, hk, hkv, hal, MbedJSONValue.get_string]
    | some a =>
      obtain ⟨ha1, ha2⟩ := hal
      have hne : ¬ ALIAS = a := fun e => ha (by rw [e])
      simp [verify_config, hf, hfv, hk, hkv, ha1, ha2, MbedJSONValue.get_string, hne]
  refine ⟨hv, ?_⟩
  simp [process_message, hc, hv, reconfigure_eq]

/-- C10 (amended) at a message whose alias is another name. -/
theorem alias_mismatch_reconfigures_witness :
    ConfigMessage (config_message M2X_DEVICE_ID M2X_API_KEY (some (lit "pond")))
      M2X_DEVICE_ID M2X_API_KEY (some (lit "pond")) ∧
    process_message ALIAS (start fun _ => silent)
        (config_message M2X_DEVICE_ID M2X_API_KEY (some (lit "pond"))) =
      some { (start fun _ => silent) with issued := [] ++ RECONFIGURATION } :=
  have h : ConfigMessage (config_message M2X_DEVICE_ID M2X_API_KEY (some (lit "pond")))
      M2X_DEVICE_ID M2X_API_KEY (some (lit "pond")) := ⟨rfl, rfl, rfl, rfl, rfl, rfl, rfl⟩
  ⟨h, (alias_mismatch_reconfigures _ _ _ _ _ h (by decide)).2⟩

/-- C10 as stated fails: a message with the expected feed-id and m2x-key and
no alias is judged not configured (alias branch) and the four
reconfiguration commands are issued. -/
theorem alias_absent_not_configured :
    verify_config ALIAS ((config_message M2X_DEVICE_ID M2X_API_KEY none).member (lit "config")) =
      some Verdict.alias_mismatch ∧
    (process_message ALIAS (start fun _ => silent)
        (config_message M2X_DEVICE_ID M2X_API_KEY none)).map (fun w => w.issued) =
      some [lit "ATSEND feed-id:abd33486151a774aa48f91cee19aef4c",
        lit "ATSEND m2x-key:6db8947ab6bfe46738df7b4df43adc60",
        lit "ATSEND alias:ageofsaturation", lit "ATSEND config:"] := by
  constructor
  · decide
  · decide

/-! ### The batch of messages -/

theorem process_messages_append (id : Str) (w : World) (a b : List MbedJSONValue) :
    process_messages id w (a ++ b) =
      (process_messages id w a).bind fun w1 => process_messages id w1 b := by
  induction a generalizing w with
  | nil => simp [process_messages]
  | cons m rest ih =>
    simp only [List.cons_append, process_messages]
    cases process_message id w m with
    | none => simp
    | some w1 => simpa using ih w1

/-- C5 (amended): when message i of a batch triggers reconfiguration (a
`config` message judged not configured) or resubscription (a `subs` message
of size 0), only the handling of that message ends there: the messages after
it are processed in order, starting from the state that the
reconfiguration or resubscription leaves. -/
theorem batch_continues_after_trigger (id : Str) (w : World) (pre post : List MbedJSONValue)
    (m : MbedJSONValue)
    (h : (m.hasMember (lit "config") = true ∧
          ∃ v, verify_config id (m.member (lit "config")) = some v ∧ v ≠ Verdict.configured) ∨
        EmptySubscriptions m) :
    process_messages id w (pre ++ m :: post) =
      (process_messages id w pre).bind fun w1 =>
        process_messages id
          (if m.hasMember (lit "config") then getConfiguration (configureMdot w1)
            else getSubscriptions (subscribeTriggers id w1)) post := by
  rw [process_messages_append]
  congr 1
  funext w1
  simp only [process_messages]
  rcases h with ⟨hc, v, hv, hvn⟩ | ⟨hc, hs, hz⟩
  · simp [process_message, hc, hv, hvn]
  · simp [process_message, hc, hs, hz]

/-- C5 (amended) at a batch of a `config` message with another key, an empty
`subs` message and a trigger: all three are handled. -/
theorem batch_continues_after_trigger_witness :
    (process_messages ALIAS (start fun _ => silent)
      ([] ++ config_message M2X_DEVICE_ID (lit "0000") (some ALIAS) ::
        [empty_subs, trigger_message (lit "dev-acc_y") 2])) =
      (process_messages ALIAS (start fun _ => silent) []).bind fun w1 =>
        process_messages ALIAS
          (if (config_message M2X_DEVICE_ID (lit "0000") (some ALIAS)).hasMember (lit "config")
            then getConfiguration (configureMdot w1)
            else getSubscriptions (subscribeTriggers ALIAS w1))
          [empty_subs, trigger_message (lit "dev-acc_y") 2] :=
  batch_continues_after_trigger ALIAS _ [] _ _
    (Or.inl ⟨rfl, Verdict.api_key_mismatch, by decide, by decide⟩)

/-- C5 as stated fails: after the `config` message at index 0 has triggered
a reconfiguration, the `subs` message at index 1 still issues its four
commands and the trigger at index 2 still lights the positive indicator. -/
theorem batch_not_aborted :
    (process_messages ALIAS (start fun _ => silent)
        [config_message M2X_DEVICE_ID (lit "0000") (some ALIAS), empty_subs,
          trigger_message (lit "dev-acc_y") 2]).map
        (fun w => (w.issued, w.led_acc_y_is_pos, w.led_acc_y_is_neg)) =
      some ([lit "ATSEND feed-id:abd33486151a774aa48f91cee19aef4c",
          lit "ATSEND m2x-key:6db8947ab6bfe46738df7b4df43adc60",
          lit "ATSEND alias:ageofsaturation", lit "ATSEND config:",
          lit "ATSEND subscribe:ageofsaturation-acc_x",
          lit "ATSEND subscribe:ageofsaturation-temp",
          lit "ATSEND subscribe:ageofsaturation-acc_z", lit "ATSEND subs:"], 0, 1) ∧
    (start fun _ => silent).led_acc_y_is_pos = 1 := by
  constructor
  · decide
  · rfl

/-! ### Subscriptions -/

theorem subscribe_fold (id : Str) (ts : List Str) (w : World) (res : Str) :
    (ts.foldl
      (fun (st : World × Str) t =>
        let r := dot_send_command st.1 (subscribe_cmd id t) st.2
        (r.2, r.1.2))
      (w, res)).1 = { w with issued := w.issued ++ ts.map (subscribe_cmd id) } := by
  induction ts generalizing w res with
  | nil => simp
  | cons t ts ih =>
    simp only [List.foldl_cons, List.map_cons]
    rw [ih]
    simp [dot_send_command]

theorem subscribeTriggers_eq (id : Str) (w : World) :
    subscribeTriggers id w =
      { w with
        triggers := w.triggers ++ [ACC_X, ACC_Y, ACC_Z]
        issued := w.issued ++ (w.triggers ++ [ACC_X, ACC_Y, ACC_Z]).map (subscribe_cmd id) } := by
  unfold subscribeTriggers
  simp only [subscribe_fold]
  simp

/-- C6, what the code does: every empty `subs` message appends the three
trigger names to the global `triggers` and then issues one subscribe command
for every name that `triggers` holds by then, so the list grows by three each
time and the second empty `subs` message of a run issues six subscribe
commands, not three. -/
theorem subscribeTriggers_accumulates :
    (∀ (id : Str) (w : World) (m : MbedJSONValue), EmptySubscriptions m →
      process_message id w m = some
        { w with
          triggers := w.triggers ++ [ACC_X, ACC_Y, ACC_Z]
          issued := w.issued ++
            ((w.triggers ++ [ACC_X, ACC_Y, ACC_Z]).map (subscribe_cmd id) ++
              [lit "ATSEND subs:"]) }) ∧
    (process_messages ALIAS (start fun _ => silent) [empty_subs, empty_subs]).map
        (fun w => (w.issued, w.triggers)) =
      some ([lit "ATSEND subscribe:ageofsaturation-acc_x",
          lit "ATSEND subscribe:ageofsaturation-temp",
          lit "ATSEND subscribe:ageofsaturation-acc_z", lit "ATSEND subs:",
          lit "ATSEND subscribe:ageofsaturation-acc_x",
          lit "ATSEND subscribe:ageofsaturation-temp",
          lit "ATSEND subscribe:ageofsaturation-acc_z",
          lit "ATSEND subscribe:ageofsaturation-acc_x",
          lit "ATSEND subscribe:ageofsaturation-temp",
          lit "ATSEND subscribe:ageofsaturation-acc_z", lit "ATSEND subs:"],
        [lit "acc_x", lit "temp", lit "acc_z", lit "acc_x", lit "temp", lit "acc_z"]) := by
  constructor
  · rintro id w m ⟨hc, hs, hz⟩
    simp [process_message, hc, hs, hz, getSubscriptions, subscribeTriggers_eq, dot_send_command]
  · decide

/-! ### Trigger messages -/

/-- C8: a `TriggerMessage` whose stream name contains "acc_y" and whose value
is an integer `v` leaves the positive indicator lit exactly when `v > 0` and
the negative indicator lit exactly when `v <= 0`, whatever the two showed
before; they are never lit together.  (A `DigitalOut` of 0 lights its LED.) -/
theorem trigger_sets_indicators (id : Str) (w : World) (m : MbedJSONValue) (stream : Str)
    (v : Int) (h : TriggerMessage m stream (MbedJSONValue.int v))
    (hacc : find stream (lit "acc_y") 0 ≠ none) :
    ∃ w1, process_message id w m = some w1 ∧
      (w1.led_acc_y_is_pos = 0 ↔ v > 0) ∧ (w1.led_acc_y_is_neg = 0 ↔ v ≤ 0) ∧
      ¬ (w1.led_acc_y_is_pos = 0 ∧ w1.led_acc_y_is_neg = 0) ∧
      w1.issued = w.issued := by
  obtain ⟨hc, hs, h1, h2, hsv, hvv⟩ := h
  have key : process_message id w m = some
      (if v > 0 then { w with led_trig := 1, led_acc_y_is_pos := 0, led_acc_y_is_neg := 1 }
        else { w with led_trig := 1, led_acc_y_is_pos := 1, led_acc_y_is_neg := 0 }) := by
    simp only [process_message, hc, hs, h1, h2, hsv, hvv, MbedJSONValue.get_string]
    simp [hacc]
  refine ⟨_, key, ?_⟩
  by_cases hv : v > 0
  · simp [hv]
  · simp only [hv, if_false]
    simp
    omega

/-- C8 at the two messages of the scenario, from a state in which the positive
indicator is lit: `{"s":"dev-acc_y","v":-3}` lights the negative indicator
and puts the positive one out, `{"s":"dev-acc_y","v":2}` does the reverse. -/
theorem trigger_sets_indicators_witness :
    TriggerMessage (trigger_message (lit "dev-acc_y") (-3)) (lit "dev-acc_y")
      (MbedJSONValue.int (-3)) ∧
    (∃ w1, process_message ALIAS { (start fun _ => silent) with led_acc_y_is_pos := 0 }
        (trigger_message (lit "dev-acc_y") (-3)) = some w1 ∧
      (w1.led_acc_y_is_pos = 0 ↔ (-3 : Int) > 0) ∧ (w1.led_acc_y_is_neg = 0 ↔ (-3 : Int) ≤ 0) ∧
      ¬ (w1.led_acc_y_is_pos = 0 ∧ w1.led_acc_y_is_neg = 0) ∧
      w1.issued = ({ (start fun _ => silent) with led_acc_y_is_pos := 0 } : World).issued) ∧
    (process_message ALIAS { (start fun _ => silent) with led_acc_y_is_pos := 0 }
        (trigger_message (lit "dev-acc_y") (-3))).map
        (fun w => (w.led_acc_y_is_pos, w.led_acc_y_is_neg)) = some (1, 0) ∧
    (process_message ALIAS { (start fun _ => silent) with led_acc_y_is_neg := 0 }
        (trigger_message (lit "dev-acc_y") 2)).map
        (fun w => (w.led_acc_y_is_pos, w.led_acc_y_is_neg)) = some (0, 1) :=
  ⟨⟨rfl, rfl, rfl, rfl, rfl, rfl⟩,
    trigger_sets_indicators ALIAS _ _ (lit "dev-acc_y") (-3) ⟨rfl, rfl, rfl, rfl, rfl, rfl⟩
      (by decide),
    by decide, by decide⟩

/-! ### The telemetry report -/

theorem reset_loop_resets (fuel : Nat) (w : World) (res : Str) :
    (reset_loop fuel w res).1.resets = w.resets := by
  induction fuel generalizing w res with
  | zero => rfl
  | succ k ih =>
    simp only [reset_loop]
    split_ifs
    · rfl
    · rw [ih]

/-- C9: in a reporting cycle `call_check` starts at 0 and is raised once for
each of the two telemetry commands that `send_command` reports as failed;
`soft_radio_reset` is entered once when the count exceeds 1 and not at all
otherwise.  The count is computed from the two commands of this cycle alone. -/
theorem report_resets (fuel : Nat) (w : World) (x c : Str) :
    (telemetry w x c).2 =
      (if (send_command (some (w.dot w.issued.length))
          (lit "ATSEND " ++ ACC_X ++ lit ":" ++ x) []).1 then 0 else 1) +
      (if (send_command (some (w.dot (w.issued.length + 1)))
          (lit "ATSEND " ++ ACC_Y ++ lit ":" ++ c) []).1 then 0 else 1) ∧
    (telemetry w x c).1 =
      { w with issued := w.issued ++
          [lit "ATSEND " ++ ACC_X ++ lit ":" ++ x, lit "ATSEND " ++ ACC_Y ++ lit ":" ++ c] } ∧
    (report fuel w x c).1.resets = w.resets + (if (telemetry w x c).2 > 1 then 1 else 0) ∧
    ((telemetry w x c).2 ≤ 1 → report fuel w x c = ((telemetry w x c).1, true)) ∧
    ((telemetry w x c).2 > 1 → report fuel w x c = soft_radio_reset fuel (telemetry w x c).1) := by
  have hw : (telemetry w x c).1 =
      { w with issued := w.issued ++
          [lit "ATSEND " ++ ACC_X ++ lit ":" ++ x, lit "ATSEND " ++ ACC_Y ++ lit ":" ++ c] } := by
    simp [telemetry, dot_send_command]
  have hr : report fuel w x c =
      if (telemetry w x c).2 > 1 then soft_radio_reset fuel (telemetry w x c).1
      else ((telemetry w x c).1, true) := rfl
  refine ⟨?_, hw, ?_, ?_, ?_⟩
  · simp only [telemetry, dot_send_command, send_command, clear, List.length_append,
      List.length_singleton]
    split_ifs <;> simp_all
  · rw [hr]
    split_ifs with h
    · simp only [soft_radio_reset, reset_loop_resets, hw]
    · rw [hw]
      simp
  · intro h
    have : ¬ (telemetry w x c).2 > 1 := by omega
    rw [hr, if_neg this]
  · intro h
    rw [hr, if_pos h]

/-! ### The radio reset -/

theorem recv_loop_done (polls : List (Option Char)) (rx : Str)
    (h : rx_done rx EXPECT = true) : recv_loop polls rx = rx := by
  cases polls with
  | nil => rfl
  | cons p polls => simp [recv_loop, h]

theorem raw_send_command_done (ser : Option Channel) (tx rx : Str)
    (h : rx_done rx EXPECT = true) : (raw_send_command ser tx rx).2 = rx := by
  cases ser with
  | none => rfl
  | some ch =>
    simp only [raw_send_command]
    split_ifs
    · rfl
    · exact recv_loop_done _ _ h

/-- Once `res` holds the prompt but not the banner, no later attempt reads
anything into it and the loop of `soft_radio_reset` never ends. -/
theorem reset_loop_stuck (res : Str) (hp : rx_done res EXPECT = true)
    (hb : find res BANNER 0 = none) (fuel : Nat) (w : World) :
    (reset_loop fuel w res).2 = false := by
  induction fuel generalizing w with
  | zero => rfl
  | succ k ih =>
    simp only [reset_loop, raw_send_command_done _ _ _ hp, hb]
    simp [ih]

/-- C7, what the code does: `res` is not cleared between attempts, so (1) a
banner from the first attempt and a prompt from the second end the loop after
two RESET commands although neither response holds both, and (2) after a
first response that holds the prompt without the banner the loop never ends,
whatever the modem answers to the later attempts (a response with banner and
prompt included). -/
theorem soft_radio_reset_keeps_res :
    ((soft_radio_reset 5 (start banner_then_prompt)).2 = true ∧
      (soft_radio_reset 5 (start banner_then_prompt)).1.issued = [lit "RESET", lit "RESET"] ∧
      find (recv_loop (banner_then_prompt 0).readable []) (lit "mDot:") 0 = none ∧
      find (recv_loop (banner_then_prompt 1).readable []) BANNER 0 = none) ∧
    (∀ (fuel : Nat) (dot : Nat → Channel),
      (soft_radio_reset fuel
        (start fun n => if n = 0 then answering 5 (lit "mDot: ") else dot n)).2 = false) := by
  refine ⟨⟨by decide, by decide, by decide, by decide⟩, ?_⟩
  intro fuel dot
  cases fuel with
  | zero => rfl
  | succ k =>
    have h1 : (raw_send_command (some (answering 5 (lit "mDot: "))) (lit "RESET") []).2 =
        lit "mDot: " := by decide
    have h2 : find (lit "mDot: ") BANNER 0 = none := by decide
    simp only [soft_radio_reset, reset_loop, start, List.length_nil, if_true, h1, h2]
    simp only [ne_eq, not_true_eq_false, false_and, if_false]
    exact reset_loop_stuck _ (by decide) h2 _ _

end Pond
